import Mathlib

/-!
Shallow embedding of the dm-rio/octo identity-provisioning core:
the `DynamicUserEntityProvider` in-memory cache (src/unnamed/part_000)
and the `rhdhSignInResolvers` sign-in resolvers
(src/packages/backend/src/modules/rhdhSignInResolvers.ts).

TypeScript objects become Lean structures; the JS `Map` becomes an
insertion-ordered association list with JS `Map.set`/`Map.delete`
semantics; thrown errors become explicit outcome values; the
`while` retry loop becomes a fuel-indexed recursion whose emitted
effects (lookup invocations, sleeps) are recorded in a trace.
-/

namespace Octo

/-- Embeds `DEFAULT_NAMESPACE` from `@backstage/catalog-model`. -/
def DEFAULT_NAMESPACE : String := "default"

/-- Display profile inside an entity's `spec` (rhdhSignInResolvers.ts lines 221-224). -/
structure Profile where
  displayName : String
  email : String
deriving DecidableEq, Repr

/-- The `spec` field of the user entity (rhdhSignInResolvers.ts lines 220-226). -/
structure UserSpec where
  profile : Profile
  memberOf : List String
deriving DecidableEq, Repr

/-- The `metadata` field of an entity (rhdhSignInResolvers.ts lines 212-219). -/
structure EntityMetadata where
  name : String
  «namespace» : String
  annotations : List (String × String)
deriving DecidableEq, Repr

/-- A catalog entity as built by `oauth2TokenClaimResolver` (lines 209-227). -/
structure Entity where
  apiVersion : String
  kind : String
  metadata : EntityMetadata
  spec : UserSpec
deriving DecidableEq, Repr

/-- Embeds `stringifyEntityRef` from `@backstage/catalog-model`:
`<kind lowercased>:<namespace>/<name>`. -/
def stringifyEntityRef (e : Entity) : String :=
  e.kind.toLower ++ ":" ++ e.metadata.«namespace» ++ "/" ++ e.metadata.name

/-! ## Decoded access-token claims (rhdhSignInResolvers.ts lines 201-207)

The resolver reads `claims?.groups` and `claims?.resource_access?.octo?.roles`
from the JSON-parsed payload.  `resource_access` is a JSON object keyed by
client id, modelled as an association list so that payloads with keys other
than `octo` are representable. -/

/-- One entry of the `resource_access` claim object: `{ roles: [...] }`,
with the `roles` field optional. -/
structure ResourceAccessEntry where
  roles : Option (List String)
deriving DecidableEq, Repr

/-- The decoded token payload fields the resolver reads: optional `groups`
and an optional `resource_access` object keyed by client id. -/
structure Claims where
  groups : Option (List String)
  resource_access : Option (List (String × ResourceAccessEntry))
deriving DecidableEq, Repr

/-- JS property access `obj[k]` on an object modelled as an association list. -/
def objGet (o : List (String × ResourceAccessEntry)) (k : String) :
    Option ResourceAccessEntry :=
  (o.find? (fun p => p.1 == k)).map Prod.snd

/-- Embeds rhdhSignInResolvers.ts lines 201-204:
`entitlements = (claims?.groups ?? []).concat(claims?.resource_access?.octo?.roles ?? [])`. -/
def entitlementsOf (claims : Option Claims) : List String :=
  let gs := (claims.bind (fun c => c.groups)).getD []
  let roles :=
    ((claims.bind (fun c => c.resource_access)).bind
      (fun ra => (objGet ra "octo").bind (fun e => e.roles))).getD []
  gs ++ roles

/-- Embeds rhdhSignInResolvers.ts lines 205-207:
each entitlement is mapped to `group:default/<entitlement>`. -/
def groupsOf (claims : Option Claims) : List String :=
  (entitlementsOf claims).map (fun entitlement => "group:default/" ++ entitlement)

/-! ## Username extraction and entity construction (lines 200, 209-227) -/

/-- JS `String.prototype.split` on a single separator character, on the
character list of the string. -/
def jsSplitAux (c : Char) : List Char → List Char → List (List Char)
  | [], acc => [acc.reverse]
  | x :: xs, acc =>
    if x = c then acc.reverse :: jsSplitAux c xs []
    else jsSplitAux c xs (x :: acc)

/-- JS `s.split(c)` for a one-character separator. -/
def jsSplit (c : Char) (s : String) : List String :=
  (jsSplitAux c s.data []).map String.mk

/-- Embeds line 200: `const [username] = info.profile.email.split('@')`. -/
def usernameOf (email : String) : String :=
  (jsSplit '@' email).headD ""

/-- Embeds rhdhSignInResolvers.ts lines 209-227: the `userEntity` literal
built from the username, email and entitlement-derived groups. -/
def buildUserEntity (email : String) (claims : Option Claims) : Entity :=
  { apiVersion := "backstage.io/v1alpha1"
    kind := "User"
    metadata :=
      { name := usernameOf email
        «namespace» := DEFAULT_NAMESPACE
        annotations :=
          [("backstage.io/managed-by-location", "url:dynamic-user-provider"),
           ("backstage.io/managed-by-origin-location", "url:dynamic-user-provider")] }
    spec :=
      { profile := { displayName := usernameOf email, email := email }
        memberOf := groupsOf claims } }

/-! ## DynamicUserEntityProvider (src/unnamed/part_000)

The class holds `connection?` and a JS `Map` `userCache`.  The map is
modelled as an insertion-ordered association list: `Map.set` overwrites the
value in place when the key exists and appends otherwise; `Map.values()`
iterates in insertion order; `Map.delete` removes the entry. -/

/-- A `DeferredEntity` from `@backstage/plugin-catalog-node`: an entity
paired with a `locationKey` (part_000 lines 29-32). -/
structure DeferredEntity where
  entity : Entity
  locationKey : String
deriving DecidableEq, Repr

/-- JS `Map.get`. -/
def mapGet (m : List (String × DeferredEntity)) (k : String) :
    Option DeferredEntity :=
  (m.find? (fun p => p.1 == k)).map Prod.snd

/-- JS `Map.set`: overwrite in place when the key exists, append otherwise. -/
def mapSet (m : List (String × DeferredEntity)) (k : String)
    (v : DeferredEntity) : List (String × DeferredEntity) :=
  if m.any (fun p => p.1 == k) then
    m.map (fun p => if p.1 == k then (k, v) else p)
  else m ++ [(k, v)]

/-- JS `Map.delete`. -/
def mapDelete (m : List (String × DeferredEntity)) (k : String) :
    List (String × DeferredEntity) :=
  m.filter (fun p => p.1 != k)

/-- The mutable fields of `DynamicUserEntityProvider`: the optional catalog
connection and the user cache (part_000 lines 11-12). -/
structure ProviderState where
  connection : Option Unit
  userCache : List (String × DeferredEntity)
deriving DecidableEq, Repr

/-- A freshly constructed provider: no connection, empty cache. -/
def initState : ProviderState := ⟨none, []⟩

/-- One `applyMutation` call on the catalog connection (part_000 lines 37-40). -/
structure Mutation where
  type : String
  entities : List DeferredEntity
deriving DecidableEq, Repr

/-- The stable key `kind:namespace/name` computed on part_000 line 28. -/
def entityKey (e : Entity) : String :=
  e.kind ++ ":" ++ e.metadata.«namespace» ++ "/" ++ e.metadata.name

/-- The deferred entity built on part_000 lines 29-32. -/
def mkDeferred (e : Entity) : DeferredEntity :=
  ⟨e, "dynamic-user-provider:" ++ entityKey e⟩

/-- Result of one provider operation: the new state, the `applyMutation`
calls it made (in order), and whether it threw to its caller. -/
structure OpResult where
  state : ProviderState
  publishes : List Mutation
  thrown : Bool
deriving DecidableEq, Repr

/-- Embeds `addOrUpdateUser` (part_000 lines 27-52).  `publishOk` says
whether the connection's `applyMutation` call succeeds; when it fails the
error is rethrown (line 47) but the cache edit stays. -/
def addOrUpdateUser (st : ProviderState) (publishOk : Bool)
    (userEntity : Entity) : OpResult :=
  let k := entityKey userEntity
  let deferredEntity := mkDeferred userEntity
  let cache := mapSet st.userCache k deferredEntity
  let st' : ProviderState := ⟨st.connection, cache⟩
  match st.connection with
  | some _ =>
      let m : Mutation := ⟨"full", cache.map Prod.snd⟩
      ⟨st', [m], !publishOk⟩
  | none => ⟨st', [], false⟩

/-- Embeds `removeUser` (part_000 lines 54-64): delete and republish only
when the key is present AND a connection is registered. -/
def removeUser (st : ProviderState) (entityKey : String) : OpResult :=
  match mapGet st.userCache entityKey, st.connection with
  | some _, some _ =>
      let cache := mapDelete st.userCache entityKey
      ⟨⟨st.connection, cache⟩, [⟨"full", cache.map Prod.snd⟩], false⟩
  | _, _ => ⟨st, [], false⟩

/-- Embeds `getAllUsers` (part_000 lines 67-69): `Array.from(userCache.values())`. -/
def getAllUsers (st : ProviderState) : List DeferredEntity :=
  st.userCache.map Prod.snd

/-- A sequence of `addOrUpdateUser` calls, threading the provider state. -/
def runUpserts (st : ProviderState) (publishOk : Bool) :
    List Entity → ProviderState
  | [] => st
  | e :: es => runUpserts (addOrUpdateUser st publishOk e).state publishOk es

/-! ## The convergence retry loop (rhdhSignInResolvers.ts lines 235-273)

`ctx.signInWithCatalogUser` either succeeds or throws.  The `catch` block
classifies the thrown value: an object with both `name` and `message`
properties is modelled as `errObj`, anything else as `other`.  The loop is
embedded as a fuel-indexed recursion over the loop iterations; the lookup
stub is indexed by how many times it has been invoked so far, and the
trace records each lookup invocation and each `setTimeout` sleep. -/

/-- A value thrown by the catalog lookup, as seen by the `catch` at
lines 246-252: either an object carrying `name` and `message`, or
anything else. -/
inductive ThrownValue where
  | errObj (name message : String)
  | other
deriving DecidableEq, Repr

/-- The opaque successful sign-in result. -/
structure BackstageSignInResult where
  token : String
deriving DecidableEq, Repr

/-- One invocation of `ctx.signInWithCatalogUser`: success or a thrown value. -/
inductive LookupOutcome where
  | success (r : BackstageSignInResult)
  | failure (e : ThrownValue)
deriving DecidableEq, Repr

/-- An observable event of the retry loop: a lookup invocation or a
`setTimeout` sleep of the given number of milliseconds. -/
inductive Ev where
  | lookupCall
  | sleepMs (ms : Nat)
deriving DecidableEq, Repr

/-- How the resolver's retry section finishes: a sign-in result returned,
or an error thrown with the given message. -/
inductive RetryResult where
  | signedIn (r : BackstageSignInResult)
  | thrown (message : String)
deriving DecidableEq, Repr

/-- The trace of one run of the retry section: its events in order and its
outcome; `none` means the fuel ran out before the loop finished. -/
structure LoopTrace where
  events : List Ev
  result : Option RetryResult
deriving DecidableEq, Repr

/-- `MAX_RETRIES` (line 237). -/
def MAX_RETRIES : Nat := 10

/-- `RETRY_DELAY_MS` (line 238). -/
def RETRY_DELAY_MS : Nat := 300

/-- The message of the error thrown at lines 268-270 when the loop exits
with no result. -/
def notConvergedMessage (userEntityRef : String) : String :=
  "User entity " ++ userEntityRef ++ " not found in catalog after " ++
    toString MAX_RETRIES ++ " attempts"

/-- The message of the error thrown at lines 260-262 for a failure whose
`name` is not `NotFoundError`. -/
def wrappedFailureMessage (message : String) : String :=
  "Failed to sign in with catalog user: " ++ message

/-- Embeds the `while` loop and the trailing `if (!result) throw`
(lines 240-271).  `lookup n` is the outcome of the (n+1)-th invocation of
`ctx.signInWithCatalogUser`; `attempt` and `calls` are the current values
of the loop counter and of the number of invocations made so far. -/
def retryLoopAux (lookup : Nat → LookupOutcome) (userEntityRef : String) :
    Nat → Nat → Nat → LoopTrace
  | 0, _, _ => ⟨[], none⟩
  | fuel + 1, attempt, calls =>
    if attempt < MAX_RETRIES then
      match lookup calls with
      | .success r => ⟨[.lookupCall], some (.signedIn r)⟩
      | .failure (.errObj name message) =>
          if name = "NotFoundError" then
            let t := retryLoopAux lookup userEntityRef fuel (attempt + 1) (calls + 1)
            ⟨.lookupCall :: .sleepMs RETRY_DELAY_MS :: t.events, t.result⟩
          else
            ⟨[.lookupCall], some (.thrown (wrappedFailureMessage message))⟩
      | .failure .other =>
          let t := retryLoopAux lookup userEntityRef fuel attempt (calls + 1)
          ⟨.lookupCall :: t.events, t.result⟩
    else ⟨[], some (.thrown (notConvergedMessage userEntityRef))⟩

/-- The retry section as entered at line 236: `attempt = 0`, no calls yet. -/
def retryLoop (lookup : Nat → LookupOutcome) (userEntityRef : String)
    (fuel : Nat) : LoopTrace :=
  retryLoopAux lookup userEntityRef fuel 0 0

/-! ## oidcLdapUuidMatchingAnnotation (rhdhSignInResolvers.ts lines 126-173)

The resolver reads the UUID claim from the user profile, requires the ID
token, re-decodes the same claim from the ID token via `decodeJwt`, fails
on any discrepancy, and otherwise calls `ctx.signInWithCatalogUser` with
an annotation filter.  `decodeJwt` is external (jose); it is abstracted as
a function giving the UUID claim of a token, `none` when absent. -/

/-- Outcome of the LDAP-UUID resolver: a `signInWithCatalogUser` call with
the given annotation filter, or a thrown error with the given message. -/
inductive LdapResolveOutcome where
  | signIn (annotationFilter : List (String × String))
  | errorMsg (message : String)
deriving DecidableEq, Repr

/-- Message thrown at lines 141-143 when the profile lacks the UUID. -/
def missingUuidMessage : String :=
  "The user profile from LDAP is missing the UUID, likely due to a misconfiguration in the provider. Please contact your system administrator for assistance."

/-- Message thrown at lines 148-149 when the ID token is missing. -/
def missingIdTokenMessage : String :=
  "The user ID token from LDAP is missing. Please contact your system administrator for assistance."

/-- Message thrown at lines 155-157 on a UUID mismatch. -/
def uuidMismatchMessage : String :=
  "There was a problem verifying your identity with LDAP due to mismatching UUID. Please contact your system administrator for assistance."

/-- Embeds the resolver body at lines 134-171.  `uuid?` is
`info.result.fullProfile.userinfo[uuidKey]` (with `""` also falsy),
`idToken?` is `info.result.fullProfile.tokenset.id_token`, and
`decodeJwtUuidClaim t` is `decodeJwt(t)?.[uuidKey]`. -/
def oidcLdapUuidMatchingAnnotation (uuid? : Option String)
    (idToken? : Option String) (decodeJwtUuidClaim : String → Option String) :
    LdapResolveOutcome :=
  match uuid? with
  | none => .errorMsg missingUuidMessage
  | some uuid =>
    if uuid = "" then .errorMsg missingUuidMessage
    else
      match idToken? with
      | none => .errorMsg missingIdTokenMessage
      | some idToken =>
        if idToken = "" then .errorMsg missingIdTokenMessage
        else if decodeJwtUuidClaim idToken ≠ some uuid then
          .errorMsg uuidMismatchMessage
        else .signIn [("backstage.io/ldap-uuid", uuid)]

/-! ## The full oauth2TokenClaimResolver flow (lines 185-274) -/

/-- Embeds the resolver body up to and including the retry loop: check the
email, build the user entity, `addOrUpdateUser` inside try/catch (a thrown
publish failure is logged and swallowed, lines 229-233), then run the
retry loop against the stringified entity ref.  Returns the provider
state after the upsert together with the retry trace, or the
missing-email error. -/
def oauth2TokenClaimResolver (st : ProviderState) (publishOk : Bool)
    (email : Option String) (claims : Option Claims)
    (lookup : Nat → LookupOutcome) (fuel : Nat) :
    Except String (ProviderState × LoopTrace) :=
  match email with
  | none => .error "Login failed, user profile does not contain an email"
  | some e =>
    if e = "" then .error "Login failed, user profile does not contain an email"
    else
      let userEntity := buildUserEntity e claims
      let r := addOrUpdateUser st publishOk userEntity
      .ok (r.state, retryLoop lookup (stringifyEntityRef userEntity) fuel)

/-! ## Lemmas about the retry loop -/

/-- Expected event trace of `k` consecutive not-found attempts: each lookup
invocation is followed by one 300 ms sleep. -/
def nfEvents : Nat → List Ev
  | 0 => []
  | k + 1 => .lookupCall :: .sleepMs 300 :: nfEvents k

theorem retryLoopAux_allNotFound (lookup : Nat → LookupOutcome)
    (h : ∀ n, ∃ m, lookup n = .failure (.errObj "NotFoundError" m))
    (ref : String) :
    ∀ (k fuel attempt calls : Nat), attempt + k = MAX_RETRIES → k < fuel →
      retryLoopAux lookup ref fuel attempt calls =
        ⟨nfEvents k, some (.thrown (notConvergedMessage ref))⟩ := by
  intro k
  induction k with
  | zero =>
    intro fuel attempt calls hak hf
    match fuel, hf with
    | fuel + 1, _ =>
      have hlt : ¬ attempt < MAX_RETRIES := by omega
      simp [retryLoopAux, hlt, nfEvents]
  | succ k ih =>
    intro fuel attempt calls hak hf
    match fuel, hf with
    | fuel + 1, _ =>
      obtain ⟨m, hm⟩ := h calls
      have hlt : attempt < MAX_RETRIES := by
        simp [MAX_RETRIES] at hak ⊢; omega
      have hrec := ih fuel (attempt + 1) (calls + 1) (by omega) (by omega)
      simp [retryLoopAux, hlt, hm, hrec, nfEvents, RETRY_DELAY_MS]

theorem notConvergedMessage_eq (ref : String) :
    notConvergedMessage ref =
      "User entity " ++ ref ++ " not found in catalog after 10 attempts" := by
  unfold notConvergedMessage
  simp only [String.append_assoc]
  rfl

/-- C1.  Given a lookup that fails with a `NotFoundError`-named error on
every call, the retry loop of `oauth2TokenClaimResolver` performs exactly
10 lookup attempts, sleeping a fixed 300 ms between attempts (one sleep
follows each failed attempt), and finishes by throwing an error whose
message names the entity reference and the attempt count 10. -/
theorem convergenceRetrier_allNotFound_tenAttempts
    (lookup : Nat → LookupOutcome)
    (h : ∀ n, ∃ m, lookup n = .failure (.errObj "NotFoundError" m))
    (ref : String) (fuel : Nat) (hf : 10 < fuel) :
    retryLoop lookup ref fuel =
      ⟨nfEvents 10,
       some (.thrown ("User entity " ++ ref ++
         " not found in catalog after 10 attempts"))⟩ ∧
    (nfEvents 10).count .lookupCall = 10 ∧
    (nfEvents 10).count (.sleepMs 300) = 10 := by
  refine ⟨?_, by decide, by decide⟩
  rw [retryLoop, retryLoopAux_allNotFound lookup h ref 10 fuel 0 0 rfl hf,
    notConvergedMessage_eq]

/-- Witness for C1: the always-not-found stub at fuel 11. -/
theorem convergenceRetrier_allNotFound_tenAttempts_witness :
    retryLoop (fun _ => .failure (.errObj "NotFoundError" "nf"))
        "user:default/jdoe" 11 =
      ⟨nfEvents 10,
       some (.thrown ("User entity " ++ "user:default/jdoe" ++
         " not found in catalog after 10 attempts"))⟩ :=
  (convergenceRetrier_allNotFound_tenAttempts
    (fun _ => .failure (.errObj "NotFoundError" "nf"))
    (fun _ => ⟨"nf", rfl⟩) "user:default/jdoe" 11 (by decide)).1

/-- C2 counterexample.  A first lookup failure named `BoomError` with
message `boom` is NOT propagated unchanged: the loop makes one attempt and
throws a new error whose message is the wrapped
`Failed to sign in with catalog user: boom`, which differs from `boom`. -/
theorem convergenceRetrier_wrapsOtherError_cex :
    retryLoop (fun _ => .failure (.errObj "BoomError" "boom"))
        "user:default/jdoe" 11 =
      ⟨[.lookupCall],
       some (.thrown "Failed to sign in with catalog user: boom")⟩ ∧
    "Failed to sign in with catalog user: boom" ≠ "boom" := by
  constructor
  · rfl
  · decide

/-- C2 amended.  Given a lookup whose first call fails with an error
object whose name is not `NotFoundError`, the retry loop makes exactly one
lookup attempt, does not sleep, and throws a new error whose message is
`Failed to sign in with catalog user: ` followed by the original error's
message (the original failure is wrapped, not propagated unchanged). -/
theorem convergenceRetrier_otherError_singleAttempt
    (lookup : Nat → LookupOutcome) (name message : String)
    (h0 : lookup 0 = .failure (.errObj name message))
    (hname : name ≠ "NotFoundError") (ref : String) (fuel : Nat)
    (hf : 0 < fuel) :
    retryLoop lookup ref fuel =
      ⟨[.lookupCall],
       some (.thrown ("Failed to sign in with catalog user: " ++ message))⟩ := by
  match fuel, hf with
  | fuel + 1, _ =>
    simp [retryLoop, retryLoopAux, h0, hname, wrappedFailureMessage, MAX_RETRIES]

/-- Witness for C2's amended theorem: name `BoomError`, message `boom`. -/
theorem convergenceRetrier_otherError_singleAttempt_witness :
    retryLoop (fun _ => .failure (.errObj "BoomError" "boom")) "r" 11 =
      ⟨[.lookupCall],
       some (.thrown ("Failed to sign in with catalog user: " ++ "boom"))⟩ :=
  convergenceRetrier_otherError_singleAttempt
    (fun _ => .failure (.errObj "BoomError" "boom")) "BoomError" "boom"
    rfl (by decide) "r" 11 (by decide)

theorem retryLoopAux_otherThrown (ref : String) :
    ∀ fuel calls, retryLoopAux (fun _ => .failure .other) ref fuel 0 calls =
      ⟨List.replicate fuel Ev.lookupCall, none⟩ := by
  intro fuel
  induction fuel with
  | zero => intro calls; simp [retryLoopAux]
  | succ fuel ih =>
    intro calls
    simp [retryLoopAux, MAX_RETRIES, ih (calls + 1), List.replicate_succ]

/-- C10.  If every lookup attempt throws a value that is not an object
with both `name` and `message` properties, the catch block matches
nothing: no error is propagated, no sleep happens, and the attempt counter
is never incremented, so for every fuel bound the loop has made exactly
`fuel` lookup invocations with no sleep events and still has no result —
the loop never terminates. -/
theorem oauth2Retry_nonErrorShape_neverTerminates (ref : String)
    (fuel : Nat) :
    retryLoop (fun _ => .failure .other) ref fuel =
      ⟨List.replicate fuel Ev.lookupCall, none⟩ :=
  retryLoopAux_otherThrown ref fuel 0

/-! ## Lemmas about the JS-Map model -/

theorem mapGet_update (m : List (String × DeferredEntity)) (k k' : String)
    (v : DeferredEntity) :
    mapGet (m.map (fun p => if p.1 == k then (k, v) else p)) k' =
      if k' = k then (if m.any (fun p => p.1 == k) then some v else none)
      else mapGet m k' := by
  induction m with
  | nil => simp [mapGet]
  | cons x xs ih =>
    unfold mapGet at ih ⊢
    rw [List.map_cons, List.any_cons]
    generalize (List.map (fun p => if p.1 == k then (k, v) else p) xs) = ms at ih ⊢
    by_cases hxk : x.1 = k
    · by_cases hk' : k' = k
      · simp [List.find?_cons, hxk, hk']
      · have h2 : (k == k') = false :=
          beq_eq_false_iff_ne.mpr (fun h => hk' h.symm)
        simp [List.find?_cons, hxk, h2, hk', ih]
    · have hxkb : (x.1 == k) = false := beq_eq_false_iff_ne.mpr hxk
      by_cases hxk' : x.1 = k'
      · have hk' : ¬ k' = k := fun h => hxk (hxk'.trans h)
        simp [List.find?_cons, hxkb, hxk', hk']
      · have hxk'b : (x.1 == k') = false := beq_eq_false_iff_ne.mpr hxk'
        simp [List.find?_cons, hxkb, hxk'b, ih]
        rw [hxkb, Bool.false_or]

theorem mapGet_mapSet (m : List (String × DeferredEntity)) (k k' : String)
    (v : DeferredEntity) :
    mapGet (mapSet m k v) k' = if k' = k then some v else mapGet m k' := by
  unfold mapSet
  split
  case isTrue h =>
    rw [mapGet_update, h]
    simp
  case isFalse h =>
    unfold mapGet
    rw [List.find?_append]
    by_cases hk' : k' = k
    · subst hk'
      have hnone : m.find? (fun p => p.1 == k') = none := by
        rw [List.find?_eq_none]
        intro p hp hpk
        exact h (List.any_eq_true.mpr ⟨p, hp, hpk⟩)
      simp [hnone, List.find?_cons]
    · have hkk' : ((⟨k, v⟩ : String × DeferredEntity).1 == k') = false := by
        simp [beq_eq_false_iff_ne]; exact fun hh => hk' hh.symm
      simp [List.find?_cons, hkk', hk', mapGet]

theorem keys_mapSet_of_mem (m : List (String × DeferredEntity)) (k : String)
    (v : DeferredEntity) (h : m.any (fun p => p.1 == k) = true) :
    (mapSet m k v).map Prod.fst = m.map Prod.fst := by
  unfold mapSet
  rw [if_pos h, List.map_map]
  refine List.map_congr_left (fun p _ => ?_)
  by_cases hp : p.1 = k
  · simp [hp]
  · simp [hp]

theorem keys_mapSet_of_not_mem (m : List (String × DeferredEntity))
    (k : String) (v : DeferredEntity)
    (h : ¬ m.any (fun p => p.1 == k) = true) :
    (mapSet m k v).map Prod.fst = m.map Prod.fst ++ [k] := by
  unfold mapSet
  rw [if_neg h, List.map_append]
  rfl

theorem length_mapSet (m : List (String × DeferredEntity)) (k : String)
    (v : DeferredEntity) :
    (mapSet m k v).length =
      if m.any (fun p => p.1 == k) then m.length else m.length + 1 := by
  unfold mapSet
  split <;> simp

theorem mem_mapSet (m : List (String × DeferredEntity)) (k : String)
    (v : DeferredEntity) (p : String × DeferredEntity)
    (hp : p ∈ mapSet m k v) : p ∈ m ∨ p = (k, v) := by
  unfold mapSet at hp
  split at hp
  · obtain ⟨q, hq, hfq⟩ := List.mem_map.mp hp
    by_cases hqk : q.1 = k
    · right; rw [← hfq]; simp [hqk]
    · left
      rw [← hfq]
      have : (q.1 == k) = false := beq_eq_false_iff_ne.mpr hqk
      rw [this]
      simpa using hq
  · rcases List.mem_append.mp hp with h | h
    · exact Or.inl h
    · exact Or.inr (List.mem_singleton.mp h)

/-! ## Lemmas about sequences of upserts -/

theorem addOrUpdateUser_userCache (st : ProviderState) (publishOk : Bool)
    (e : Entity) :
    (addOrUpdateUser st publishOk e).state.userCache =
      mapSet st.userCache (entityKey e) (mkDeferred e) := by
  obtain ⟨c, cache⟩ := st
  cases c <;> rfl

theorem addOrUpdateUser_stateConnection (st : ProviderState)
    (publishOk : Bool) (e : Entity) :
    (addOrUpdateUser st publishOk e).state.connection = st.connection := by
  obtain ⟨c, cache⟩ := st
  cases c <;> rfl

theorem runUpserts_mapGet (publishOk : Bool) (es : List Entity) :
    ∀ (st : ProviderState) (k : String),
      mapGet (runUpserts st publishOk es).userCache k =
        ((es.reverse.find? (fun e => entityKey e == k)).map mkDeferred).or
          (mapGet st.userCache k) := by
  induction es with
  | nil => intro st k; simp [runUpserts]
  | cons e rest ih =>
    intro st k
    rw [runUpserts, ih, addOrUpdateUser_userCache, mapGet_mapSet,
      List.reverse_cons, List.find?_append]
    cases hf : rest.reverse.find? (fun e' => entityKey e' == k) with
    | some e' => simp [hf]
    | none =>
      by_cases hk : k = entityKey e
      · simp [hf, List.find?_cons, hk]
      · have hne : (entityKey e == k) = false :=
          beq_eq_false_iff_ne.mpr (fun h => hk h.symm)
        simp [hf, List.find?_cons, hne, hk]

theorem runUpserts_keys_nodup (publishOk : Bool) (es : List Entity) :
    ∀ st : ProviderState, (st.userCache.map Prod.fst).Nodup →
      ((runUpserts st publishOk es).userCache.map Prod.fst).Nodup := by
  induction es with
  | nil => intro st h; exact h
  | cons e rest ih =>
    intro st h
    rw [runUpserts]
    apply ih
    rw [addOrUpdateUser_userCache]
    by_cases hmem : st.userCache.any (fun p => p.1 == entityKey e) = true
    · rw [keys_mapSet_of_mem _ _ _ hmem]; exact h
    · rw [keys_mapSet_of_not_mem _ _ _ hmem]
      have hk : entityKey e ∉ st.userCache.map Prod.fst := by
        intro hmemk
        obtain ⟨p, hp, hpk⟩ := List.mem_map.mp hmemk
        exact hmem (List.any_eq_true.mpr ⟨p, hp, by simp [hpk]⟩)
      simp [List.nodup_append, h, hk]

theorem runUpserts_length (publishOk : Bool) : ∀ (es : List Entity)
    (st : ProviderState), (es.map entityKey).Nodup →
    (∀ e ∈ es, ¬ st.userCache.any (fun p => p.1 == entityKey e) = true) →
    (runUpserts st publishOk es).userCache.length =
      st.userCache.length + es.length := by
  intro es
  induction es with
  | nil => intro st _ _; simp [runUpserts]
  | cons e rest ih =>
    intro st hnd hdisj
    have hne : ¬ st.userCache.any (fun p => p.1 == entityKey e) = true :=
      hdisj e (List.mem_cons_self e rest)
    rw [List.map_cons, List.nodup_cons] at hnd
    rw [runUpserts]
    have hcache : (addOrUpdateUser st publishOk e).state.userCache =
        st.userCache ++ [(entityKey e, mkDeferred e)] := by
      rw [addOrUpdateUser_userCache]; unfold mapSet; rw [if_neg hne]
    have hdisj' : ∀ e' ∈ rest,
        ¬ (addOrUpdateUser st publishOk e).state.userCache.any
          (fun p => p.1 == entityKey e') = true := by
      intro e' he' hany
      rw [hcache, List.any_append] at hany
      rcases Bool.or_eq_true_iff.mp hany with h | h
      · exact hdisj e' (List.mem_cons_of_mem e he') h
      · have : entityKey e = entityKey e' := by simpa using h
        exact hnd.1 (this ▸ List.mem_map_of_mem entityKey he')
    rw [ih (addOrUpdateUser st publishOk e).state hnd.2 hdisj', hcache]
    simp
    omega

theorem runUpserts_storedKeys (publishOk : Bool) (es : List Entity) :
    ∀ st : ProviderState,
      (∀ p ∈ st.userCache, p.1 = entityKey p.2.entity) →
      ∀ p ∈ (runUpserts st publishOk es).userCache,
        p.1 = entityKey p.2.entity := by
  induction es with
  | nil => intro st h; exact h
  | cons e rest ih =>
    intro st h
    rw [runUpserts]
    apply ih
    intro p hp
    rw [addOrUpdateUser_userCache] at hp
    rcases mem_mapSet _ _ _ _ hp with hmem | heq
    · exact h p hmem
    · rw [heq]; rfl

/-- C4.  For every sequence of `addOrUpdateUser` calls starting from a
fresh provider: the stored keys are pairwise distinct, the snapshot
returned by `getAllUsers` has pairwise distinct stable keys
`kind:namespace/name` (exactly one deferred entity per key), for every
key the cached entry is the deferred entity of the LAST upsert with that
key (last write wins), and when all upserted keys are pairwise distinct
the snapshot length equals the number of upserts. -/
theorem dynamicUserProvider_lastWriteWins (es : List Entity) :
    (((runUpserts initState true es).userCache.map Prod.fst).Nodup) ∧
    (((getAllUsers (runUpserts initState true es)).map
        (fun d => entityKey d.entity)).Nodup) ∧
    (∀ k, mapGet (runUpserts initState true es).userCache k =
      (es.reverse.find? (fun e => entityKey e == k)).map mkDeferred) ∧
    ((es.map entityKey).Nodup →
      (getAllUsers (runUpserts initState true es)).length = es.length) := by
  have hnodup := runUpserts_keys_nodup true es initState (by simp [initState])
  have hinv := runUpserts_storedKeys true es initState
    (by intro p hp; simp [initState] at hp)
  refine ⟨hnodup, ?_, ?_, ?_⟩
  · have hmapeq : (getAllUsers (runUpserts initState true es)).map
        (fun d => entityKey d.entity) =
        (runUpserts initState true es).userCache.map Prod.fst := by
      unfold getAllUsers
      rw [List.map_map]
      exact List.map_congr_left (fun p hp => (hinv p hp).symm)
    rw [hmapeq]; exact hnodup
  · intro k
    rw [runUpserts_mapGet true es initState k]
    simp [initState, mapGet]
  · intro hnd
    unfold getAllUsers
    rw [List.length_map,
      runUpserts_length true es initState hnd (by simp [initState])]
    simp [initState]

/-- Witness for C4: two upserts with distinct keys give a snapshot of
length two. -/
theorem dynamicUserProvider_lastWriteWins_witness :
    ([buildUserEntity "a@x" none, buildUserEntity "b@x" none].map
        entityKey).Nodup ∧
    (getAllUsers (runUpserts initState true
        [buildUserEntity "a@x" none, buildUserEntity "b@x" none])).length
      = 2 :=
  ⟨by decide,
   (dynamicUserProvider_lastWriteWins
      [buildUserEntity "a@x" none, buildUserEntity "b@x" none]).2.2.2
      (by decide)⟩

/-- C5.  Each provider mutation publishes at most once, and when it does
publish it calls `applyMutation` exactly once, with batch type `full` and
with the complete cache contents after the mutation (the `getAllUsers`
snapshot of the post-mutation state) — never a delta.  `addOrUpdateUser`
publishes exactly when a connection is registered; `removeUser` exactly
when the key is present and a connection is registered. -/
theorem provider_publishesFullSnapshot (st : ProviderState)
    (publishOk : Bool) (e : Entity) (k : String) :
    ((addOrUpdateUser st publishOk e).publishes =
      if st.connection.isSome then
        [⟨"full", getAllUsers (addOrUpdateUser st publishOk e).state⟩]
      else []) ∧
    ((removeUser st k).publishes =
      if ((mapGet st.userCache k).isSome && st.connection.isSome) then
        [⟨"full", getAllUsers (removeUser st k).state⟩]
      else []) := by
  constructor
  · obtain ⟨c, cache⟩ := st
    cases c <;> simp [addOrUpdateUser, getAllUsers]
  · obtain ⟨c, cache⟩ := st
    cases c <;> cases hg : mapGet cache k <;>
      simp [removeUser, getAllUsers, hg]

theorem addOrUpdateUser_state_publishOk (st : ProviderState) (e : Entity) :
    (addOrUpdateUser st false e).state = (addOrUpdateUser st true e).state := by
  obtain ⟨c, cache⟩ := st
  cases c <;> rfl

/-- C6.  When the publish fails during `addOrUpdateUser` on a connected
provider: the operation rethrows the failure to its caller, the cache
edit is not rolled back (the upserted entity is still cached), and in
`oauth2TokenClaimResolver` the failure is caught, so resolution still
proceeds to the retry loop and the overall resolver outcome is the same
as if the publish had succeeded. -/
theorem upsert_publishFailure_notRolledBack (st : ProviderState)
    (hconn : st.connection = some ()) (u : Entity) (email : String)
    (he : ¬ email = "") (claims : Option Claims)
    (lookup : Nat → LookupOutcome) (fuel : Nat) :
    (addOrUpdateUser st false u).thrown = true ∧
    mapGet (addOrUpdateUser st false u).state.userCache (entityKey u) =
      some (mkDeferred u) ∧
    oauth2TokenClaimResolver st false (some email) claims lookup fuel =
      .ok ((addOrUpdateUser st false (buildUserEntity email claims)).state,
        retryLoop lookup (stringifyEntityRef (buildUserEntity email claims))
          fuel) ∧
    oauth2TokenClaimResolver st false (some email) claims lookup fuel =
      oauth2TokenClaimResolver st true (some email) claims lookup fuel := by
  refine ⟨?_, ?_, ?_, ?_⟩
  · simp [addOrUpdateUser, hconn]
  · rw [addOrUpdateUser_userCache, mapGet_mapSet]
    simp
  · simp [oauth2TokenClaimResolver, he, retryLoop]
  · simp [oauth2TokenClaimResolver, he, addOrUpdateUser_state_publishOk]

/-- Witness for C6: a connected provider with an empty cache, a failing
publish, and a lookup that succeeds immediately. -/
theorem upsert_publishFailure_notRolledBack_witness :
    (addOrUpdateUser ⟨some (), []⟩ false (buildUserEntity "a@x" none)).thrown
        = true ∧
    mapGet (addOrUpdateUser ⟨some (), []⟩ false
        (buildUserEntity "a@x" none)).state.userCache
        (entityKey (buildUserEntity "a@x" none)) =
      some (mkDeferred (buildUserEntity "a@x" none)) ∧
    oauth2TokenClaimResolver ⟨some (), []⟩ false (some "jdoe@example.com")
        none (fun _ => .success ⟨"tok"⟩) 1 =
      .ok ((addOrUpdateUser ⟨some (), []⟩ false
          (buildUserEntity "jdoe@example.com" none)).state,
        retryLoop (fun _ => .success ⟨"tok"⟩)
          (stringifyEntityRef (buildUserEntity "jdoe@example.com" none)) 1) ∧
    oauth2TokenClaimResolver ⟨some (), []⟩ false (some "jdoe@example.com")
        none (fun _ => .success ⟨"tok"⟩) 1 =
      oauth2TokenClaimResolver ⟨some (), []⟩ true (some "jdoe@example.com")
        none (fun _ => .success ⟨"tok"⟩) 1 :=
  upsert_publishFailure_notRolledBack ⟨some (), []⟩ rfl
    (buildUserEntity "a@x" none) "jdoe@example.com" (by decide) none
    (fun _ => .success ⟨"tok"⟩) 1

/-- C7 counterexample.  With the key present in the cache but no
connection registered, `removeUser` does NOT delete the slot: the state
is unchanged (the entry is still retrievable afterwards) and no publish
happens, contradicting "deletes the cache slot if the key is present and
then republishes". -/
theorem removeUser_presentKeyNoConnection_cex :
    mapGet [(entityKey (buildUserEntity "x@example.com" none),
        mkDeferred (buildUserEntity "x@example.com" none))]
      (entityKey (buildUserEntity "x@example.com" none)) =
      some (mkDeferred (buildUserEntity "x@example.com" none)) ∧
    removeUser ⟨none, [(entityKey (buildUserEntity "x@example.com" none),
        mkDeferred (buildUserEntity "x@example.com" none))]⟩
      (entityKey (buildUserEntity "x@example.com" none)) =
      ⟨⟨none, [(entityKey (buildUserEntity "x@example.com" none),
        mkDeferred (buildUserEntity "x@example.com" none))]⟩, [], false⟩ ∧
    mapGet (removeUser ⟨none,
        [(entityKey (buildUserEntity "x@example.com" none),
          mkDeferred (buildUserEntity "x@example.com" none))]⟩
      (entityKey (buildUserEntity "x@example.com" none))).state.userCache
      (entityKey (buildUserEntity "x@example.com" none)) =
      some (mkDeferred (buildUserEntity "x@example.com" none)) := by
  refine ⟨rfl, rfl, rfl⟩

/-- C7 amended.  `removeUser` deletes the cache slot and republishes the
full post-delete snapshot exactly when the key is present AND a
connection is registered; otherwise — key absent, or no connection — it
is a no-op that leaves the state (hence the snapshot) unchanged and
performs no publish call. -/
theorem removeUser_spec (st : ProviderState) (k : String) :
    removeUser st k =
      if ((mapGet st.userCache k).isSome && st.connection.isSome) then
        ⟨⟨st.connection, mapDelete st.userCache k⟩,
         [⟨"full", (mapDelete st.userCache k).map Prod.snd⟩], false⟩
      else ⟨st, [], false⟩ := by
  obtain ⟨c, cache⟩ := st
  cases c <;> cases hg : mapGet cache k <;> simp [removeUser, hg]

/-- C3 counterexample.  The payload
`{"groups":["a"],"resource_access":{"app":{"roles":["b"]}}}` does NOT
yield `{"group:default/a","group:default/b"}`: the code reads the role
list at `resource_access.octo.roles`, so the roles under the key `app`
are ignored and only `group:default/a` is produced. -/
theorem claimExtractor_appKey_cex :
    groupsOf (some ⟨some ["a"], some [("app", ⟨some ["b"]⟩)]⟩) =
      ["group:default/a"] ∧
    groupsOf (some ⟨some ["a"], some [("app", ⟨some ["b"]⟩)]⟩) ≠
      ["group:default/a", "group:default/b"] := by
  constructor
  · rfl
  · decide

/-- C3 amended.  The fixed nested-role path is
`resource_access.octo.roles`: whenever the `octo` entry holds role list
`rs` and `groups` is `gs`, the entitlements are `gs ++ rs` (groups first,
duplicates preserved) and each entitlement `e` is mapped to
`group:default/ ++ e`; in particular the payload
`{"groups":["a"],"resource_access":{"octo":{"roles":["b"]}}}` yields
`{"group:default/a","group:default/b"}`. -/
theorem claimExtractor_octoRoles (gs rs : List String)
    (ra : List (String × ResourceAccessEntry))
    (h : objGet ra "octo" = some ⟨some rs⟩) :
    groupsOf (some ⟨some gs, some ra⟩) =
      (gs ++ rs).map (fun entitlement => "group:default/" ++ entitlement) := by
  simp [groupsOf, entitlementsOf, h]

/-- Witness for C3 amended: the payload with the roles under `octo`. -/
theorem claimExtractor_octoRoles_witness :
    groupsOf (some ⟨some ["a"], some [("octo", ⟨some ["b"]⟩)]⟩) =
      (["a"] ++ ["b"]).map
        (fun entitlement => "group:default/" ++ entitlement) :=
  claimExtractor_octoRoles ["a"] ["b"] [("octo", ⟨some ["b"]⟩)] rfl

/-! ## Lemmas about the JS split used for the username -/

theorem jsSplitAux_ne_nil (c : Char) :
    ∀ (l acc : List Char), jsSplitAux c l acc ≠ [] := by
  intro l
  induction l with
  | nil => intro acc; simp [jsSplitAux]
  | cons x xs ih =>
    intro acc
    unfold jsSplitAux
    split
    · simp
    · exact ih (x :: acc)

theorem jsSplitAux_headD (c : Char) :
    ∀ (l acc : List Char),
      (jsSplitAux c l acc).headD [] =
        acc.reverse ++ l.takeWhile (fun x => x != c) := by
  intro l
  induction l with
  | nil => intro acc; simp [jsSplitAux]
  | cons x xs ih =>
    intro acc
    unfold jsSplitAux
    by_cases hx : x = c
    · rw [if_pos hx]
      simp [List.takeWhile_cons, hx]
    · rw [if_neg hx]
      rw [ih (x :: acc)]
      simp [List.takeWhile_cons, hx]

theorem usernameOf_eq_takeWhile (email : String) :
    usernameOf email = String.mk (email.data.takeWhile (fun x => x != '@')) := by
  unfold usernameOf jsSplit
  cases hsplit : jsSplitAux '@' email.data [] with
  | nil => exact absurd hsplit (jsSplitAux_ne_nil '@' email.data [])
  | cons h t =>
    have hh := jsSplitAux_headD '@' email.data []
    rw [hsplit] at hh
    simp only [List.headD_cons, List.reverse_nil, List.nil_append] at hh
    simp [hh]

/-- C8.  For every non-empty email, the identity record built by
`oauth2TokenClaimResolver` has `name` equal to the substring of the email
before the first `@` (the longest `@`-free prefix), `namespace` equal to
the default namespace, and `spec.profile = {displayName = name, email}`. -/
theorem oauth2Resolver_identityRecord (email : String) (he : ¬ email = "")
    (claims : Option Claims) :
    (buildUserEntity email claims).metadata.name =
      String.mk (email.data.takeWhile (fun x => x != '@')) ∧
    (buildUserEntity email claims).metadata.«namespace» = DEFAULT_NAMESPACE ∧
    (buildUserEntity email claims).spec.profile =
      ⟨(buildUserEntity email claims).metadata.name, email⟩ :=
  ⟨usernameOf_eq_takeWhile email, rfl, rfl⟩

/-- Witness for C8: the email `jdoe@example.com` yields name `jdoe`. -/
theorem oauth2Resolver_identityRecord_witness :
    ((buildUserEntity "jdoe@example.com" none).metadata.name =
      String.mk ("jdoe@example.com".data.takeWhile (fun x => x != '@')) ∧
     (buildUserEntity "jdoe@example.com" none).metadata.«namespace» =
      DEFAULT_NAMESPACE ∧
     (buildUserEntity "jdoe@example.com" none).spec.profile =
      ⟨(buildUserEntity "jdoe@example.com" none).metadata.name,
        "jdoe@example.com"⟩) ∧
    (buildUserEntity "jdoe@example.com" none).metadata.name = "jdoe" :=
  ⟨oauth2Resolver_identityRecord "jdoe@example.com" (by decide) none, rfl⟩

/-- C9.  When the UUID claim from the user profile and the same claim
re-decoded from the ID token are both present but differ, the LDAP-UUID
resolver always throws the UUID-mismatch error and never calls
`signInWithCatalogUser`, so it never produces a sign-in result. -/
theorem ldapUuidMismatch_neverSignsIn (uuid v idToken : String)
    (decodeJwtUuidClaim : String → Option String) (hu : ¬ uuid = "")
    (ht : ¬ idToken = "") (hdec : decodeJwtUuidClaim idToken = some v)
    (hne : v ≠ uuid) :
    oidcLdapUuidMatchingAnnotation (some uuid) (some idToken)
        decodeJwtUuidClaim = .errorMsg uuidMismatchMessage ∧
    ∀ fil, oidcLdapUuidMatchingAnnotation (some uuid) (some idToken)
        decodeJwtUuidClaim ≠ .signIn fil := by
  have hmain : oidcLdapUuidMatchingAnnotation (some uuid) (some idToken)
      decodeJwtUuidClaim = .errorMsg uuidMismatchMessage := by
    simp [ oidcLdapUuidMatchingAnnotation, hu, ht, hdec, hne]
  refine ⟨hmain, fun fil h => ?_⟩
  rw [hmain] at h
  exact LdapResolveOutcome.noConfusion h

/-- Witness for C9: profile UUID `u1`, decoded ID-token UUID `u2`. -/
theorem ldapUuidMismatch_neverSignsIn_witness :
    oidcLdapUuidMatchingAnnotation (some "u1") (some "tok")
        (fun _ => some "u2") = .errorMsg uuidMismatchMessage :=
  (ldapUuidMismatch_neverSignsIn "u1" "u2" "tok" (fun _ => some "u2")
    (by decide) (by decide) rfl (by decide)).1

end Octo
